import Mathlib

/-!
Verification of the retrieval / multi-hop deep-search subsystem of the
PDFusion desktop PDF translator (directory `src/desktop_pdf_translator/rag/`).

The Python modules are shallowly embedded: Python `float` scores become `ℚ`,
Python `str` becomes `String` (with `str.lower`/`str.split` modelled over the
character list; only ASCII case folding is modelled), Python dict rows become
Lean structures, SQLite tables become lists of rows, wall-clock instants become
integers/rationals, and fallible operations return `Except String _`.
Mutable instance state (visited sets, the cache store, the graph) is threaded
explicitly.  Definitions keep the Python names (including the leading
underscore used for private methods) where Lean allows it.
-/

/-! ## String helpers modelling Python `str` operations -/

/-- ASCII-only model of Python `str.lower()` (the repository only relies on
ASCII case folding for its keyword tests). -/
def toLowerStr (s : String) : String :=
  String.mk (s.data.map Char.toLower)

/-- Model of the Python substring test `sub in s`, on character lists.
`"" in s` is `True` in Python, matched by `List.isPrefixOf [] _ = true`. -/
def hasSubstr (l sub : List Char) : Bool :=
  match l with
  | [] => sub.isEmpty
  | c :: rest => sub.isPrefixOf (c :: rest) || hasSubstr rest sub

/-- Model of Python whitespace character class used by `str.split()`. -/
def isPySpace (c : Char) : Bool :=
  c = ' ' || c = '\n' || c = '\t' || c = '\r'

/-- Helper for `splitWords`: accumulates the current word (reversed). -/
def splitWordsGo : List Char → List Char → List String
  | [], acc => if acc.isEmpty then [] else [String.mk acc.reverse]
  | c :: rest, acc =>
    if isPySpace c then
      if acc.isEmpty then splitWordsGo rest []
      else String.mk acc.reverse :: splitWordsGo rest []
    else splitWordsGo rest (c :: acc)

/-- Model of Python `str.split()` (no argument): splits on whitespace runs,
producing no empty words. -/
def splitWords (s : String) : List String :=
  splitWordsGo s.data []

/-! ## `deep_search.py`: the `PaperResult` record

The free-form `metadata: Dict[str, Any]` field carries no behaviour in the
verified code paths and is omitted from the embedding. -/

structure PaperResult where
  paper_id : String
  title : String
  authors : List String
  abstract : String
  year : Int
  source : String
  citation_count : Int := 0
  citations : List String := []
  cited_by : List String := []
  relevance_score : ℚ := 0
  pdf_url : Option String := none
  doi : Option String := none
  key_findings : Option String := none
  venue : Option String := none
deriving DecidableEq, Repr

/-! ## `deep_search.py`: scoring and diverse selection -/

/-- The relevance score computed for one paper inside `_score_papers`
(`0.4·keyword + 0.3·citations + 0.3·recency`).  `current_year` stands for
`datetime.now().year`. -/
def scorePaperRelevance (current_year : Int) (key_concepts : List String)
    (p : PaperResult) : ℚ :=
  let citation_score : ℚ :=
    if p.citation_count ≠ 0 then min ((p.citation_count : ℚ) / 100) 1 else 0
  let text := toLowerStr (p.title ++ " " ++ p.abstract)
  let keyword_matches : ℕ :=
    (key_concepts.filter (fun c => hasSubstr text.data (toLowerStr c).data)).length
  let keyword_score : ℚ :=
    if key_concepts ≠ [] then min ((keyword_matches : ℚ) / key_concepts.length) 1 else 0
  let recency_score : ℚ :=
    if p.year > 2000 then min (((p.year : ℚ) - 2000) / ((current_year : ℚ) - 2000)) 1 else 0
  0.4 * keyword_score + 0.3 * citation_score + 0.3 * recency_score

/-- `DeepSearchEngine._score_papers`: recompute every `relevance_score`, then
sort by score descending (`papers.sort(key=..., reverse=True)`). -/
def _score_papers (current_year : Int) (papers : List PaperResult)
    (key_concepts : List String) : List PaperResult :=
  let scored := papers.map
    (fun p => { p with relevance_score := scorePaperRelevance current_year key_concepts p })
  scored.insertionSort (fun a b => b.relevance_score ≤ a.relevance_score)

/-- First pass of `_select_diverse_papers`: at most one paper per source;
the `break` on a full selection is modelled by returning the accumulator. -/
def diverseFirstPass (max_papers : ℕ) :
    List PaperResult → List PaperResult → List String → List PaperResult × List String
  | [], selected, sources_used => (selected, sources_used)
  | p :: rest, selected, sources_used =>
    if max_papers ≤ selected.length then (selected, sources_used)
    else if p.source ∈ sources_used then diverseFirstPass max_papers rest selected sources_used
    else diverseFirstPass max_papers rest (selected ++ [p]) (sources_used ++ [p.source])

/-- Second pass of `_select_diverse_papers`: fill remaining slots in input
order (the input is already sorted by relevance), skipping records already
selected (Python `paper not in selected` compares whole records). -/
def diverseSecondPass (max_papers : ℕ) :
    List PaperResult → List PaperResult → List PaperResult
  | [], selected => selected
  | p :: rest, selected =>
    if max_papers ≤ selected.length then selected
    else if p ∈ selected then diverseSecondPass max_papers rest selected
    else diverseSecondPass max_papers rest (selected ++ [p])

/-- `DeepSearchEngine._select_diverse_papers`. -/
def _select_diverse_papers (papers : List PaperResult) (max_papers : ℕ) :
    List PaperResult :=
  let firstPass := diverseFirstPass max_papers papers [] []
  (diverseSecondPass max_papers papers firstPass.1).take max_papers

/-- `DeepSearchEngine._llm_select_papers` ("simplified implementation"):
score with empty key concepts, take the top `max_select`. -/
def _llm_select_papers (current_year : Int) (papers : List PaperResult)
    (max_select : ℕ) : List PaperResult :=
  (_score_papers current_year papers []).take max_select

/-! ## `deep_search.py`: engine state machine

External collaborators (`academic_apis`, `vector_store`, the progress
callback) are modelled as an environment of pre-determined outcomes; a Python
exception raised by a collaborator call is an `Except.error`. -/

/-- One hit returned by `vector_store.search_similar`, as consumed by
`_search_local_knowledge` (chunk text plus the metadata keys it reads,
each `metadata.get(...)` default represented by `Option`). -/
structure LocalHit where
  text : String
  document_id : Option String := none
  title : Option String := none
  authors : Option (List String) := none
  year : Option Int := none
  similarity : Option ℚ := none
deriving DecidableEq, Repr

/-- The `PaperResult` built from a local ChromaDB hit in
`_search_local_knowledge` (note the `local_` id prefix). -/
def localHitToPaper (h : LocalHit) : PaperResult :=
  { paper_id := "local_" ++ h.document_id.getD "unknown"
    title := h.title.getD "Local Document"
    authors := h.authors.getD ["Unknown"]
    abstract := h.text.take 500
    year := h.year.getD 0
    source := "local_chromadb"
    relevance_score := h.similarity.getD 0 }

/-- The subset of `DeepSearchSettings` (config/models.py) read by the engine. -/
structure DeepSettings where
  max_hops : ℕ
  max_papers_per_hop : ℕ
  follow_citations : Bool
  follow_cited_by : Bool
  recent_papers_only : Bool
  recent_years_threshold : Int
deriving DecidableEq, Repr

/-- Outcomes of the engine's collaborator calls during one invocation.
`progress` is the outcome of invoking the optional progress callback
(`none` = no callback supplied). -/
structure DeepEnv where
  search_all : Except String (List PaperResult)
  get_citations : String → String → Except String (List PaperResult)
  get_cited_by : String → String → Except String (List PaperResult)
  search_similar : Except String (List LocalHit)
  progress : Option (Except String Unit)
  current_year : Int

/-- `DeepSearchEngine._search_local_knowledge`: any exception is caught and
yields `[]`. -/
def _search_local_knowledge (env : DeepEnv) : List PaperResult :=
  match env.search_similar with
  | Except.error _ => []
  | Except.ok hits => hits.map localHitToPaper

/-- `DeepSearchEngine._hop_0_initial_search`: score, select diversely, and on
any exception return `[]` (the `except` clause logs and returns `[]`). -/
def _hop_0_initial_search (env : DeepEnv) (key_concepts : List String)
    (max_papers : ℕ) : List PaperResult :=
  match env.search_all with
  | Except.error _ => []
  | Except.ok papers =>
      _select_diverse_papers (_score_papers env.current_year papers key_concepts) max_papers

/-- The per-seed citation gathering loop of hops 1/2: the whole loop sits in
one `try`, so the first failing call aborts the gathering with an error. -/
def gatherFromSeeds (f : String → String → Except String (List PaperResult)) :
    List PaperResult → Except String (List PaperResult)
  | [] => Except.ok []
  | p :: rest => do
      let cs ← f p.paper_id p.source
      let more ← gatherFromSeeds f rest
      pure (cs ++ more)

/-- `DeepSearchEngine._hop_1_backward_citations`: gather citations of the
seeds, drop visited, select via `_llm_select_papers`; any exception inside
the hop yields `[]`. -/
def _hop_1_backward_citations (env : DeepEnv) (seed_papers : List PaperResult)
    (max_papers : ℕ) (visited_papers : List String) : List PaperResult :=
  match gatherFromSeeds env.get_citations seed_papers with
  | Except.error _ => []
  | Except.ok all_citations =>
      let unvisited := all_citations.filter (fun c => c.paper_id ∉ visited_papers)
      if unvisited.isEmpty then []
      else _llm_select_papers env.current_year unvisited max_papers

/-- `DeepSearchEngine._hop_2_forward_citations`: gather cited-by papers,
optionally keep only recent ones, drop visited, select; any exception inside
the hop yields `[]`. -/
def _hop_2_forward_citations (env : DeepEnv) (settings : DeepSettings)
    (seed_papers : List PaperResult) (max_papers : ℕ)
    (visited_papers : List String) : List PaperResult :=
  match gatherFromSeeds env.get_cited_by seed_papers with
  | Except.error _ => []
  | Except.ok all_cited_by =>
      let all_cited_by :=
        if settings.recent_papers_only then
          all_cited_by.filter
            (fun p => env.current_year - settings.recent_years_threshold ≤ p.year)
        else all_cited_by
      let unvisited := all_cited_by.filter (fun p => p.paper_id ∉ visited_papers)
      if unvisited.isEmpty then []
      else _llm_select_papers env.current_year unvisited max_papers

/-- The answer string built by `_synthesize_results`. -/
def synthesizeAnswer (all_papers local_papers : List PaperResult)
    (hops : List (List PaperResult)) : String :=
  let a := "Based on analysis of " ++ toString all_papers.length ++ " papers across "
      ++ toString hops.length ++ " hops:\n\n"
  let a := a ++ "[This would be a comprehensive synthesis combining insights from all papers]\n\n"
  let a := a ++ "Local knowledge: " ++ toString local_papers.length
      ++ " relevant papers from your library\n"
  let a := a ++ (match hops.get? 0 with
    | some h => "Initial papers: " ++ toString h.length ++ " papers\n"
    | none => "")
  let a := a ++ (match hops.get? 1 with
    | some h => "Foundational work: " ++ toString h.length ++ " papers\n"
    | none => "")
  a ++ (match hops.get? 2 with
    | some h => "Recent developments: " ++ toString h.length ++ " papers\n"
    | none => "")

/-- `DeepSearchResult` (SearchHop bookkeeping is kept as the per-hop selected
paper lists; wall-clock fields are not modelled). -/
structure DeepSearchResult where
  question : String
  answer : String
  papers : List PaperResult
  local_papers : List PaperResult
  hops : List (List PaperResult)
  paper_summaries : List (PaperResult × String)
  total_papers : ℕ
  total_hops : ℕ
deriving DecidableEq, Repr

/-- The per-paper summary list built by `_synthesize_results`. -/
def paperSummaries (all_papers : List PaperResult) : List (PaperResult × String) :=
  all_papers.map (fun p =>
    (p, if p.abstract ≠ "" then p.abstract.take 200 else "No summary available"))

/-- Python's `a or b` default resolution for the `max_hops` /
`max_papers_per_hop` overrides (`None` and `0` both fall back). -/
def orDefault (override : Option ℕ) (default : ℕ) : ℕ :=
  match override with
  | none => default
  | some n => if n = 0 then default else n

/-- The successful body of `deep_search`: the visited set is cleared on entry
and threaded through the hops. -/
def deepSearchBody (env : DeepEnv) (settings : DeepSettings) (question : String)
    (key_concepts : List String) (max_hops_arg max_papers_arg : Option ℕ) :
    DeepSearchResult :=
  let max_hops := orDefault max_hops_arg settings.max_hops
  let max_papers_per_hop := orDefault max_papers_arg settings.max_papers_per_hop
  let local_papers := _search_local_knowledge env
  let hop0_papers := _hop_0_initial_search env key_concepts max_papers_per_hop
  let visited₀ := hop0_papers.map PaperResult.paper_id
  let run_hop1 := 2 ≤ max_hops ∧ settings.follow_citations = true ∧ hop0_papers ≠ []
  let hop1_papers :=
    if run_hop1 then _hop_1_backward_citations env hop0_papers max_papers_per_hop visited₀
    else []
  let visited₁ := visited₀ ++ hop1_papers.map PaperResult.paper_id
  let run_hop2 := 3 ≤ max_hops ∧ settings.follow_cited_by = true ∧ hop0_papers ≠ []
  let hop2_papers :=
    if run_hop2 then
      _hop_2_forward_citations env settings hop0_papers max_papers_per_hop visited₁
    else []
  let hops := [hop0_papers]
    ++ (if run_hop1 then [hop1_papers] else [])
    ++ (if run_hop2 then [hop2_papers] else [])
  let all_papers := hop0_papers ++ hop1_papers ++ hop2_papers
  { question := question
    answer := synthesizeAnswer all_papers local_papers hops
    papers := all_papers
    local_papers := local_papers
    hops := hops
    paper_summaries := paperSummaries all_papers
    total_papers := all_papers.length + local_papers.length
    total_hops := hops.length }

/-- `DeepSearchEngine.deep_search`: a raising progress callback is the one
modelled orchestration failure that reaches the outer `except ... raise`
handler; every collaborator failure is contained inside the stage helpers. -/
def deep_search (env : DeepEnv) (settings : DeepSettings) (question : String)
    (key_concepts : List String) (max_hops_arg max_papers_arg : Option ℕ) :
    Except String DeepSearchResult :=
  match env.progress with
  | some (Except.error e) => Except.error e
  | _ => Except.ok
      (deepSearchBody env settings question key_concepts max_hops_arg max_papers_arg)

/-! ## `academic_apis.py`: `AsyncRateLimiter`

Wall-clock instants are rationals.  `acquire` models one pass through
`__aenter__` while holding the mutex: `last_request` is the stored state,
`now` the value of `time.time()` read on entry; the returned pair is
(completion instant of the protected call's admission, new `last_request`).
`asyncio.sleep(w)` resumes exactly `w` seconds later in this model. -/

/-- `1.0 / requests_per_second if requests_per_second > 0 else 0`. -/
def min_interval (requests_per_second : ℚ) : ℚ :=
  if requests_per_second > 0 then 1 / requests_per_second else 0

/-- One `async with` entry of `AsyncRateLimiter`: the instant at which the
protected call is admitted.  `self.last_request` is then set to the same
instant (`time.time()` right after the optional sleep). -/
def AsyncRateLimiter.acquire (min_int last_request now : ℚ) : ℚ :=
  let time_since_last := now - last_request
  if time_since_last < min_int then now + (min_int - time_since_last) else now

/-- Completion instants of a sequence of protected acquisitions serialized by
the limiter's mutex; `arrivals` are the `time.time()` readings on entry. -/
def AsyncRateLimiter.completions (min_int last_request : ℚ) :
    List ℚ → List ℚ
  | [] => []
  | now :: arrivals =>
      let c := AsyncRateLimiter.acquire min_int last_request now
      c :: AsyncRateLimiter.completions min_int c arrivals

/-! ## `paper_cache.py`: `PaperCache`

The SQLite table (`paper_id TEXT PRIMARY KEY`) is a list of rows; `INSERT OR
REPLACE` replaces the row with the same primary key.  Timestamps are integers
(seconds); the TTL of `ttl_days` days is `ttl_days * 86400` seconds.  JSON
round-tripping of `authors` / `metadata` is the identity in this model. -/

structure CachedRow where
  paper_id : String
  source : String
  title : String
  authors : List String
  abstract : String
  year : Option Int
  citation_count : Option Int
  pdf_url : Option String
  metadata : Option (List (String × String))
  cached_at : Int
  expires_at : Int
deriving DecidableEq, Repr

/-- The `paper_data` dict passed to `PaperCache.set`; `none` = key absent
(each field is read with `.get`).  Extra (non-standard) keys are the
`extra` association list. -/
structure PaperData where
  paper_id : Option String := none
  source : Option String := none
  title : Option String := none
  authors : Option (List String) := none
  abstract : Option String := none
  year : Option Int := none
  citation_count : Option Int := none
  pdf_url : Option String := none
  extra : List (String × String) := []
deriving DecidableEq, Repr

/-- The dict returned by `PaperCache.get` (standard columns plus the merged
metadata JSON). -/
structure CachePayload where
  paper_id : String
  source : String
  title : String
  authors : List String
  abstract : String
  year : Option Int
  citation_count : Option Int
  pdf_url : Option String
  extra : List (String × String)
deriving DecidableEq, Repr

/-- Python falsiness of `paper_data.get('paper_id')`: absent or empty. -/
def cacheKeyMissing : Option String → Bool
  | none => true
  | some s => s = ""

/-- Row predicate of `WHERE paper_id = ? AND source = ?`. -/
def rowMatches (pid src : String) (r : CachedRow) : Bool :=
  r.paper_id = pid && r.source = src

/-- `PaperCache.set`: returns the `bool` result and the new table. -/
def PaperCache.set (ttl_days : Int) (now : Int) (store : List CachedRow)
    (paper_data : PaperData) : Bool × List CachedRow :=
  if cacheKeyMissing paper_data.paper_id || cacheKeyMissing paper_data.source then
    (false, store)
  else
    let pid := paper_data.paper_id.getD ""
    let row : CachedRow :=
      { paper_id := pid
        source := paper_data.source.getD ""
        title := paper_data.title.getD ""
        authors := paper_data.authors.getD []
        abstract := paper_data.abstract.getD ""
        year := paper_data.year
        citation_count := paper_data.citation_count
        pdf_url := paper_data.pdf_url
        metadata := if paper_data.extra.isEmpty then none else some paper_data.extra
        cached_at := now
        expires_at := now + ttl_days * 86400 }
    (true, row :: store.filter (fun r => r.paper_id ≠ pid))

/-- `PaperCache.get`: returns the payload (or `none`) and the table after the
opportunistic deletion of an expired row. -/
def PaperCache.get (now : Int) (store : List CachedRow) (pid src : String) :
    Option CachePayload × List CachedRow :=
  match store.find? (rowMatches pid src) with
  | none => (none, store)
  | some row =>
    if row.expires_at < now then
      (none, store.filter (fun r => !rowMatches pid src r))
    else
      (some { paper_id := row.paper_id
              source := row.source
              title := row.title
              authors := row.authors
              abstract := row.abstract
              year := row.year
              citation_count := row.citation_count
              pdf_url := row.pdf_url
              extra := row.metadata.getD [] }, store)

/-! ## `citation_graph.py`: `CitationGraph` (the part exercised by
`add_paper`); the `self.nodes` dict is an insertion-ordered association
list, the mirrored NetworkX node set carries the same keys. -/

structure PaperNode where
  paper : PaperResult
  citations_out : List String := []
  citations_in : List String := []
  visited : Bool := false
deriving DecidableEq, Repr

structure CitationGraph where
  nodes : List (String × PaperNode) := []
  visited : List String := []
deriving DecidableEq, Repr

/-- `CitationGraph.add_paper`: `False` and no change if the id is present,
otherwise insert a fresh node and return `True`. -/
def CitationGraph.add_paper (g : CitationGraph) (paper : PaperResult) :
    Bool × CitationGraph :=
  if (g.nodes.lookup paper.paper_id).isSome then (false, g)
  else (true, { g with nodes := g.nodes ++ [(paper.paper_id, { paper := paper })] })

/-! ## `rag_chain.py`: chunk records, merge/dedupe and re-ranking

A retrieved chunk dict: `Option` marks keys that may be absent (every access
in the source goes through `.get`). -/

structure ChunkMeta where
  page : Option Int := none
  chunk_index : Option Int := none
  chunk_type : Option String := none
  section_type : Option String := none
  document_id : Option String := none
deriving DecidableEq, Repr

structure Chunk where
  text : String := ""
  original_text : Option String := none
  metadata : ChunkMeta := {}
  similarity_score : Option ℚ := none
  final_score : Option ℚ := none
  rerank_score : Option ℚ := none
  is_metadata_query : Option Bool := none
  chunk_id : Option String := none
deriving DecidableEq, Repr

/-- `x.get('final_score', x.get('similarity_score', 0))` — the sort key of
`_merge_search_results` and the base score of `_rerank_results`. -/
def chunkBaseScore (c : Chunk) : ℚ :=
  c.final_score.getD (c.similarity_score.getD 0)

/-- The dedup loop of `_merge_search_results`: keep a result only if its
`chunk_id` is truthy and unseen (thus the FIRST occurrence of each id). -/
def mergeDedup : List Chunk → List String → List Chunk
  | [], _ => []
  | c :: rest, seen_ids =>
    match c.chunk_id with
    | none => mergeDedup rest seen_ids
    | some cid =>
      if cid = "" || cid ∈ seen_ids then mergeDedup rest seen_ids
      else c :: mergeDedup rest (cid :: seen_ids)

/-- `EnhancedRAGChain._merge_search_results`. -/
def _merge_search_results (results1 results2 : List Chunk) (max_results : ℕ) :
    List Chunk :=
  let merged := mergeDedup (results1 ++ results2) []
  (merged.insertionSort (fun a b => chunkBaseScore b ≤ chunkBaseScore a)).take max_results

/-- The bilingual metadata keyword set of `_rerank_results`. -/
def metadataKeywords : List String :=
  ["title", "author", "abstract", "summary", "introduction", "conclusion",
   "tiêu đề", "tác giả", "tóm tắt", "giới thiệu", "kết luận"]

/-- Metadata-question detection (`any(kw in question_lower ...)`). -/
def isMetadataQuery (question : String) : Bool :=
  metadataKeywords.any (fun kw => hasSubstr (toLowerStr question).data kw.data)

/-- `chunk.get('original_text', chunk.get('text', '')).lower()`. -/
def chunkTextLower (c : Chunk) : String :=
  toLowerStr (c.original_text.getD c.text)

/-- `metadata.get('chunk_type', metadata.get('section_type', 'content'))`. -/
def chunkSectionType (c : Chunk) : String :=
  c.metadata.chunk_type.getD (c.metadata.section_type.getD "content")

/-- Keyword-density component of the re-rank score. -/
def chunkKeywordDensity (question_words : Finset String) (c : Chunk) : ℚ :=
  let words_in_text := (splitWords (chunkTextLower c)).toFinset
  ((question_words ∩ words_in_text).card : ℚ) / max question_words.card 1

/-- Page-position component: `1.0 / (1.0 + page * 0.1)`, page defaulting
to 100. -/
def chunkPageScore (c : Chunk) : ℚ :=
  1 / (1 + (c.metadata.page.getD 100 : ℚ) * 0.1)

/-- Chunk-index component: `1.0 / (1.0 + chunk_index * 0.05)`. -/
def chunkIndexScore (c : Chunk) : ℚ :=
  1 / (1 + (c.metadata.chunk_index.getD 100 : ℚ) * 0.05)

/-- Length component: `min(len(text) / 500, 1.0)` over the enriched text. -/
def chunkLengthScore (c : Chunk) : ℚ :=
  min ((c.text.length : ℚ) / 500) 1

/-- Section-type component, by query kind. -/
def chunkSectionScore (is_meta : Bool) (c : Chunk) : ℚ :=
  if is_meta then
    if chunkSectionType c = "title" then 1
    else if chunkSectionType c = "header" then 0.8
    else if chunkSectionType c = "abstract" then 0.9
    else 0
  else
    if chunkSectionType c = "content" then 0.3 else 0

/-- The combined re-rank score of one chunk in `_rerank_results`. -/
def rerankScore (question : String) (c : Chunk) : ℚ :=
  let question_words := (splitWords (toLowerStr question)).toFinset
  let is_meta := isMetadataQuery question
  let base_score := chunkBaseScore c
  let keyword_density := chunkKeywordDensity question_words c
  let page_score := chunkPageScore c
  let index_score := chunkIndexScore c
  let length_score := chunkLengthScore c
  let section_score := chunkSectionScore is_meta c
  if is_meta then
    0.15 * base_score + 0.05 * keyword_density + 0.2 * page_score
      + 0.2 * index_score + 0.1 * length_score + 0.3 * section_score
  else
    0.4 * base_score + 0.3 * keyword_density + 0.15 * page_score
      + 0.05 * index_score + 0.05 * length_score + 0.05 * section_score

/-- The in-place update `chunk['rerank_score'] = ...` etc. -/
def rerankUpdate (question : String) (c : Chunk) : Chunk :=
  { c with rerank_score := some (rerankScore question c)
           final_score := some (rerankScore question c)
           is_metadata_query := some (isMetadataQuery question) }

/-- `EnhancedRAGChain._rerank_results`. -/
def _rerank_results (question : String) (chunks : List Chunk) (top_k : ℕ) :
    List Chunk :=
  if chunks.isEmpty then []
  else
    let updated := chunks.map (rerankUpdate question)
    (updated.insertionSort
      (fun a b => b.rerank_score.getD 0 ≤ a.rerank_score.getD 0)).take top_k

/-! ## `academic_apis.py`: the id namespace of API-built papers

Every `PaperResult` constructed from a provider response carries a
source-prefixed id: `f"pubmed_{pmid}"`, `f"s2_{paper_id}"`, `f"core_{core_id}"`. -/

def IsApiPaperId (s : String) : Prop :=
  ∃ t, s = "pubmed_" ++ t ∨ s = "s2_" ++ t ∨ s = "core_" ++ t

/-- A `DeepEnv` whose API outcomes only ever deliver provider-built ids, as
`AcademicAPIManager` does. -/
def ApiIdsOnly (env : DeepEnv) : Prop :=
  (∀ l, env.search_all = Except.ok l → ∀ p ∈ l, IsApiPaperId p.paper_id) ∧
  (∀ pid src l, env.get_citations pid src = Except.ok l →
    ∀ p ∈ l, IsApiPaperId p.paper_id) ∧
  (∀ pid src l, env.get_cited_by pid src = Except.ok l →
    ∀ p ∈ l, IsApiPaperId p.paper_id)

/-! ## `rag_chain.py`: the `answer_question` result dicts

Result dicts are association lists over a small JSON-like value type; the
three dict literals of `answer_question` / `_answer_with_deep_search` are
embedded with their exact keys and nesting. -/

inductive JVal where
  | str : String → JVal
  | num : ℚ → JVal
  | bool : Bool → JVal
  | list : List JVal → JVal
  | dict : List (String × JVal) → JVal
  | null : JVal
deriving Repr

/-- The standard-path result dict (rag_chain.py lines 153-164). -/
def standardResultDict (answer : String) (pdf_references web_references : List JVal)
    (total_sources : ℚ) (processing_time : ℚ) (n_pdf n_web : ℚ)
    (timestamp : String) : List (String × JVal) :=
  [("answer", JVal.str answer),
   ("pdf_references", JVal.list pdf_references),
   ("web_references", JVal.list web_references),
   ("quality_metrics", JVal.dict [("total_sources", JVal.num total_sources)]),
   ("processing_time", JVal.num processing_time),
   ("sources_used", JVal.dict
      [("pdf_sources", JVal.num n_pdf), ("web_sources", JVal.num n_web)]),
   ("timestamp", JVal.str timestamp)]

/-- The error-path result dict (rag_chain.py lines 171-177). -/
def errorResultDict (e : String) : List (String × JVal) :=
  [("answer", JVal.str ("Sorry, I cannot answer this question due to an error: " ++ e)),
   ("pdf_references", JVal.list []),
   ("web_references", JVal.list []),
   ("quality_metrics", JVal.dict
      [("confidence", JVal.num 0), ("completeness", JVal.num 0)]),
   ("error", JVal.str e)]

/-- The deep-search-path result dict (rag_chain.py lines 543-561). -/
def deepResultDict (answer : String) (pdf_references web_references : List JVal)
    (deep_search_result : List (String × JVal)) (total_papers total_hops : ℚ)
    (processing_time : ℚ) (n_pdf n_acad : ℚ) (timestamp : String) :
    List (String × JVal) :=
  [("answer", JVal.str answer),
   ("pdf_references", JVal.list pdf_references),
   ("web_references", JVal.list web_references),
   ("deep_search_result", JVal.dict deep_search_result),
   ("quality_metrics", JVal.dict
      [("confidence", JVal.num 0.9),
       ("completeness", JVal.num (min (total_papers / 15) 1)),
       ("total_papers", JVal.num total_papers),
       ("total_hops", JVal.num total_hops)]),
   ("processing_time", JVal.num processing_time),
   ("sources_used", JVal.dict
      [("pdf_sources", JVal.num n_pdf), ("academic_papers", JVal.num n_acad)]),
   ("timestamp", JVal.str timestamp),
   ("search_type", JVal.str "deep_search")]

/-- Dynamic values flowing into the standard-path dict. -/
structure StandardRun where
  answer : String
  pdf_references : List JVal
  web_references : List JVal
  total_sources : ℚ
  processing_time : ℚ
  n_pdf : ℚ
  n_web : ℚ
  timestamp : String
deriving Repr

/-- Dynamic values flowing into the deep-search-path dict. -/
structure DeepRun where
  answer : String
  pdf_references : List JVal
  web_references : List JVal
  deep_search_result : List (String × JVal)
  total_papers : ℚ
  total_hops : ℚ
  processing_time : ℚ
  n_pdf : ℚ
  n_acad : ℚ
  timestamp : String
deriving Repr

/-- Outcomes of one `answer_question` run: whether the deep engine was
constructed, whether `_answer_with_deep_search` succeeded (`none` = it raised
and falls back to the standard path, rag_chain.py lines 567-575), and whether
the standard path succeeded (`none` = its `try` body raised `error_msg`). -/
structure AnswerEnv where
  deep_engine_available : Bool
  deep_outcome : Option DeepRun
  standard_outcome : Option StandardRun
  error_msg : String

/-- `EnhancedRAGChain.answer_question` — the dict each control-flow path
returns, built by the corresponding dict literal. -/
def answer_question (env : AnswerEnv) (use_deep_search : Bool) :
    List (String × JVal) :=
  let standard :=
    match env.standard_outcome with
    | some s => standardResultDict s.answer s.pdf_references s.web_references
        s.total_sources s.processing_time s.n_pdf s.n_web s.timestamp
    | none => errorResultDict env.error_msg
  if use_deep_search && env.deep_engine_available then
    match env.deep_outcome with
    | some d => deepResultDict d.answer d.pdf_references d.web_references
        d.deep_search_result d.total_papers d.total_hops d.processing_time
        d.n_pdf d.n_acad d.timestamp
    | none => standard
  else standard

/-! ## Concrete instances used by witnesses and counterexamples -/

/-- A minimal paper record. -/
def paperW : PaperResult :=
  { paper_id := "pubmed_1", title := "Quantum computing", authors := ["A"],
    abstract := "qubits", year := 2020, source := "pubmed" }

/-- A concrete cache record for the C4 witness. -/
def paperDataW : PaperData :=
  { paper_id := some "pubmed_1", source := some "pubmed", title := some "T",
    authors := some ["A"], abstract := some "abs", year := some 2020,
    extra := [("venue", "X")] }

/-- The descending-score sort relation of `_merge_search_results` is total. -/
instance chunkDescTotal :
    IsTotal Chunk (fun a b => chunkBaseScore b ≤ chunkBaseScore a) :=
  ⟨fun _ _ => le_total _ _⟩

/-- ... and transitive. -/
instance chunkDescTrans :
    IsTrans Chunk (fun a b => chunkBaseScore b ≤ chunkBaseScore a) :=
  ⟨fun _ _ _ hab hbc => le_trans hbc hab⟩

/-- Two same-id chunks with different scores, for the C2 counterexample:
the raw-question search scored chunk "A" at 0.3 ... -/
def chunkA1 : Chunk := { chunk_id := some "A", similarity_score := some (3 / 10) }

/-- ... and the hypothetical-answer search scored the same chunk at 0.9. -/
def chunkA2 : Chunk := { chunk_id := some "A", similarity_score := some (9 / 10) }

/-- A distinct chunk used by the C2 witness. -/
def chunkB : Chunk := { chunk_id := some "B", similarity_score := some (1 / 2) }

/-- The metadata-style question of the C7 witness. -/
def questionW : String := "what is the title of this document?"

/-- A title chunk with raw similarity 0.5 (C7 witness). -/
def titleChunkW : Chunk :=
  { text := "Deep Learning", original_text := some "Deep Learning",
    metadata := { page := some 0, chunk_index := some 0, chunk_type := some "title" },
    similarity_score := some (1 / 2), chunk_id := some "doc_chunk_0" }

/-- A content chunk with raw similarity 0.9 and otherwise identical signals
(C7 witness). -/
def contentChunkW : Chunk :=
  { text := "Deep Learning", original_text := some "Deep Learning",
    metadata := { page := some 0, chunk_index := some 0, chunk_type := some "content" },
    similarity_score := some (9 / 10), chunk_id := some "doc_chunk_1" }

/-- A successful standard-path run (C8 counterexample). -/
def standardRunW : StandardRun :=
  { answer := "ans", pdf_references := [], web_references := [],
    total_sources := 0, processing_time := 1, n_pdf := 0, n_web := 0,
    timestamp := "t" }

/-- An `answer_question` run that takes the standard path (C8). -/
def answerEnvStdW : AnswerEnv :=
  { deep_engine_available := false, deep_outcome := none,
    standard_outcome := some standardRunW, error_msg := "" }

/-- An `answer_question` run whose standard path raises (C8). -/
def answerEnvErrW : AnswerEnv :=
  { deep_engine_available := false, deep_outcome := none,
    standard_outcome := none, error_msg := "boom" }

/-- C6 witness candidates: three top-scored papers share one source, plus one
paper from each of two other sources. -/
def pA1 : PaperResult :=
  { paper_id := "s2_1", title := "t1", authors := [], abstract := "",
    year := 2024, source := "semantic_scholar", relevance_score := 9/10 }

def pA2 : PaperResult :=
  { paper_id := "s2_2", title := "t2", authors := [], abstract := "",
    year := 2023, source := "semantic_scholar", relevance_score := 8/10 }

def pA3 : PaperResult :=
  { paper_id := "s2_3", title := "t3", authors := [], abstract := "",
    year := 2022, source := "semantic_scholar", relevance_score := 7/10 }

def pB : PaperResult :=
  { paper_id := "pubmed_4", title := "t4", authors := [], abstract := "",
    year := 2021, source := "pubmed", relevance_score := 6/10 }

def pC : PaperResult :=
  { paper_id := "core_5", title := "t5", authors := [], abstract := "",
    year := 2020, source := "core", relevance_score := 5/10 }

/-- The C6 witness candidate list (already sorted by descending score). -/
def papersSrcW : List PaperResult := [pA1, pA2, pA3, pB, pC]

/-- A second API paper (semantic scholar), cited by `paperW`. -/
def paperS2W : PaperResult :=
  { paper_id := "s2_9", title := "Prior work", authors := ["B"],
    abstract := "", year := 2019, source := "semantic_scholar" }

/-- A local-knowledge hit for the deep-search witnesses. -/
def localHitW : LocalHit :=
  { text := "local text", document_id := some "doc1", similarity := some (1 / 2) }

/-- Deep-search settings used by the witnesses (the config defaults). -/
def cfgW : DeepSettings :=
  { max_hops := 3, max_papers_per_hop := 5, follow_citations := true,
    follow_cited_by := true, recent_papers_only := false,
    recent_years_threshold := 3 }

/-- A fully healthy collaborator environment. -/
def envOkW : DeepEnv :=
  { search_all := Except.ok [paperW]
    get_citations := fun _ _ => Except.ok [paperS2W]
    get_cited_by := fun _ _ => Except.ok []
    search_similar := Except.ok [localHitW]
    progress := none
    current_year := 2026 }

/-- The same environment with a raising progress callback. -/
def envCbFailW : DeepEnv := { envOkW with progress := some (Except.error "cb") }

/-- The same environment with `search_all` raising inside hop 0. -/
def envHop0FailW : DeepEnv := { envOkW with search_all := Except.error "api down" }

-- END OF DEFINITIONS

/-! ## C9: `CitationGraph.add_paper` idempotence -/

theorem lookup_append_of_none {β : Type} (l₁ l₂ : List (String × β)) (k : String)
    (h : l₁.lookup k = none) : (l₁ ++ l₂).lookup k = l₂.lookup k := by
  induction l₁ with
  | nil => simp
  | cons a l ih =>
    simp only [List.lookup, List.cons_append] at h ⊢
    cases hk : (k == a.1) with
    | true => simp [hk] at h
    | false => simp only [hk] at h ⊢; exact ih h

theorem add_paper_of_found (g : CitationGraph) (q : PaperResult)
    (h : (g.nodes.lookup q.paper_id).isSome = true) :
    g.add_paper q = (false, g) := by
  unfold CitationGraph.add_paper
  simp [h]

theorem add_paper_of_not_found (g : CitationGraph) (q : PaperResult)
    (h : g.nodes.lookup q.paper_id = none) :
    g.add_paper q =
      (true, { g with nodes := g.nodes ++ [(q.paper_id, { paper := q })] }) := by
  unfold CitationGraph.add_paper
  simp [h]

/-- C9: if `paper_id` is not yet a node, `add_paper` returns `True`, adds
exactly one node storing the fresh `PaperNode`; a second call with any paper
carrying the same `paper_id` returns `False` and leaves the graph — node
count and stored node included — unchanged. -/
theorem claim_C9_add_paper_idempotent (g : CitationGraph) (p : PaperResult)
    (h : g.nodes.lookup p.paper_id = none) :
    (g.add_paper p).1 = true ∧
    (g.add_paper p).2.nodes.length = g.nodes.length + 1 ∧
    (g.add_paper p).2.nodes.lookup p.paper_id = some { paper := p } ∧
    (∀ p' : PaperResult, p'.paper_id = p.paper_id →
      (g.add_paper p).2.add_paper p' = (false, (g.add_paper p).2)) := by
  have hstep := add_paper_of_not_found g p h
  have hlook : (g.add_paper p).2.nodes.lookup p.paper_id = some { paper := p } := by
    rw [hstep]
    simp only
    rw [lookup_append_of_none _ _ _ h]
    simp [List.lookup]
  refine ⟨by rw [hstep], by rw [hstep]; simp, hlook, ?_⟩
  intro p' hp'
  exact add_paper_of_found _ p' (by rw [hp', hlook]; rfl)

/-- C9 witness: the theorem applied to the empty graph and a concrete paper. -/
theorem claim_C9_witness :
    ((CitationGraph.add_paper {} paperW).1 = true ∧
      (CitationGraph.add_paper {} paperW).2.nodes.length = 1 ∧
      (CitationGraph.add_paper {} paperW).2.nodes.lookup "pubmed_1" =
        some { paper := paperW } ∧
      (CitationGraph.add_paper {} paperW).2.add_paper paperW =
        (false, (CitationGraph.add_paper {} paperW).2)) := by
  have h := claim_C9_add_paper_idempotent {} paperW (by rfl)
  exact ⟨h.1, h.2.1, h.2.2.1, h.2.2.2 paperW rfl⟩

/-! ## C10: `PaperCache.set` input validation -/

/-- C10: `set` with an absent/empty `paper_id` or `source` returns `False`
and leaves the table untouched (no insert, replace or delete). -/
theorem claim_C10_set_missing_key (ttl_days now : Int) (store : List CachedRow)
    (d : PaperData)
    (h : cacheKeyMissing d.paper_id = true ∨ cacheKeyMissing d.source = true) :
    PaperCache.set ttl_days now store d = (false, store) := by
  unfold PaperCache.set
  rcases h with h | h <;> simp [h]

/-- C10 witness: a record lacking `paper_id` is rejected and the store kept. -/
theorem claim_C10_witness :
    PaperCache.set 7 0 [] { source := some "pubmed", title := some "T" } =
      (false, []) :=
  claim_C10_set_missing_key 7 0 [] _ (Or.inl rfl)

/-! ## C4: `PaperCache` round-trip and TTL purge -/

/-- C4: for a record with non-empty `paper_id` and `source` and a
non-negative TTL, `set` succeeds and an immediate `get` with the same
`(paper_id, source)` key returns the written data (standard columns plus the
extra metadata); once `expires_at < now`, `get` returns `none` and the table
it leaves behind holds no row for that key. -/
theorem claim_C4_cache_roundtrip (ttl_days now now2 : Int)
    (store : List CachedRow) (d : PaperData) (pid src : String)
    (hpid : d.paper_id = some pid) (hpid0 : pid ≠ "")
    (hsrc : d.source = some src) (hsrc0 : src ≠ "")
    (httl : 0 ≤ ttl_days) :
    (PaperCache.set ttl_days now store d).1 = true ∧
    (PaperCache.get now (PaperCache.set ttl_days now store d).2 pid src).1 =
      some { paper_id := pid, source := src, title := d.title.getD "",
             authors := d.authors.getD [], abstract := d.abstract.getD "",
             year := d.year, citation_count := d.citation_count,
             pdf_url := d.pdf_url, extra := d.extra } ∧
    (now + ttl_days * 86400 < now2 →
      (PaperCache.get now2 (PaperCache.set ttl_days now store d).2 pid src).1 =
        none ∧
      ∀ r ∈ (PaperCache.get now2 (PaperCache.set ttl_days now store d).2 pid src).2,
        rowMatches pid src r = false) := by
  have hmiss1 : cacheKeyMissing d.paper_id = false := by
    rw [hpid]; simpa [cacheKeyMissing] using hpid0
  have hmiss2 : cacheKeyMissing d.source = false := by
    rw [hsrc]; simpa [cacheKeyMissing] using hsrc0
  have hrow : PaperCache.set ttl_days now store d =
      (true,
        { paper_id := pid, source := src, title := d.title.getD "",
          authors := d.authors.getD [], abstract := d.abstract.getD "",
          year := d.year, citation_count := d.citation_count,
          pdf_url := d.pdf_url,
          metadata := if d.extra.isEmpty then none else some d.extra,
          cached_at := now, expires_at := now + ttl_days * 86400 } ::
            store.filter (fun r => r.paper_id ≠ pid)) := by
    unfold PaperCache.set
    rw [hmiss1, hmiss2]
    simp [hpid, hsrc]
  have hmatch : rowMatches pid src
      { paper_id := pid, source := src, title := d.title.getD "",
        authors := d.authors.getD [], abstract := d.abstract.getD "",
        year := d.year, citation_count := d.citation_count,
        pdf_url := d.pdf_url,
        metadata := if d.extra.isEmpty then none else some d.extra,
        cached_at := now, expires_at := now + ttl_days * 86400 } = true := by
    simp [rowMatches]
  refine ⟨by rw [hrow], ?_, ?_⟩
  · rw [hrow]
    unfold PaperCache.get
    rw [List.find?_cons_of_pos _ hmatch]
    have hnotexp : ¬ (now + ttl_days * 86400 < now) := by omega
    simp only [hnotexp, if_false]
    cases hextra : d.extra with
    | nil => simp [hextra]
    | cons a l => simp [hextra]
  · intro hexp
    rw [hrow]
    unfold PaperCache.get
    rw [List.find?_cons_of_pos _ hmatch]
    simp only [hexp, if_true]
    refine ⟨by trivial, ?_⟩
    intro r hr
    have := List.of_mem_filter hr
    simpa using this

/-- C4 witness: the round-trip at a concrete record, instant 0, TTL 7 days,
and an expired read at instant 700000. -/
theorem claim_C4_witness :
    (PaperCache.set 7 0 [] paperDataW).1 = true ∧
    (PaperCache.get 0 (PaperCache.set 7 0 [] paperDataW).2 "pubmed_1" "pubmed").1 =
      some { paper_id := "pubmed_1", source := "pubmed", title := "T",
             authors := ["A"], abstract := "abs", year := some 2020,
             citation_count := none, pdf_url := none, extra := [("venue", "X")] } ∧
    (PaperCache.get 700000 (PaperCache.set 7 0 [] paperDataW).2
        "pubmed_1" "pubmed").1 = none := by
  have h := claim_C4_cache_roundtrip 7 0 700000 [] paperDataW "pubmed_1" "pubmed"
    rfl (by decide) rfl (by decide) (by decide)
  exact ⟨h.1, h.2.1, (h.2.2 (by norm_num)).1⟩

/-! ## C5: `AsyncRateLimiter` spacing -/

theorem acquire_ge (min_int last now : ℚ) :
    last + min_int ≤ AsyncRateLimiter.acquire min_int last now := by
  by_cases h : now - last < min_int
  · simp only [AsyncRateLimiter.acquire, if_pos h]
    linarith
  · simp only [AsyncRateLimiter.acquire, if_neg h]
    push_neg at h
    linarith

theorem completions_length (m l : ℚ) (ts : List ℚ) :
    (AsyncRateLimiter.completions m l ts).length = ts.length := by
  induction ts generalizing l with
  | nil => rfl
  | cons t ts ih => simp [AsyncRateLimiter.completions, ih]

theorem completions_head_ge (m l t : ℚ) (ts : List ℚ)
    (h : 0 < (AsyncRateLimiter.completions m l (t :: ts)).length) :
    l + m ≤ (AsyncRateLimiter.completions m l (t :: ts)).get ⟨0, h⟩ := by
  simpa [AsyncRateLimiter.completions] using acquire_ge m l t

theorem completions_spread (m : ℚ) (ts : List ℚ) :
    ∀ (l : ℚ) (i j : ℕ)
      (hi : i < (AsyncRateLimiter.completions m l ts).length)
      (hj : j < (AsyncRateLimiter.completions m l ts).length),
      i ≤ j →
      (AsyncRateLimiter.completions m l ts).get ⟨i, hi⟩ + ((j - i : ℕ) : ℚ) * m ≤
        (AsyncRateLimiter.completions m l ts).get ⟨j, hj⟩ := by
  induction ts with
  | nil =>
    intro l i j hi hj _
    simp [AsyncRateLimiter.completions] at hi
  | cons t ts ih =>
    intro l i j hi hj hij
    cases j with
    | zero =>
      have hi0 : i = 0 := Nat.le_zero.mp hij
      subst hi0
      simp
    | succ j' =>
      cases i with
      | zero =>
        have hj' : j' < (AsyncRateLimiter.completions m
            (AsyncRateLimiter.acquire m l t) ts).length := by
          have := hj
          simpa [AsyncRateLimiter.completions] using this
        have h0' : 0 < (AsyncRateLimiter.completions m
            (AsyncRateLimiter.acquire m l t) ts).length := Nat.lt_of_le_of_lt (Nat.zero_le _) hj'
        have hIH := ih (AsyncRateLimiter.acquire m l t) 0 j' h0' hj' (Nat.zero_le _)
        have hhead : AsyncRateLimiter.acquire m l t + m ≤
            (AsyncRateLimiter.completions m (AsyncRateLimiter.acquire m l t) ts).get
              ⟨0, h0'⟩ := by
          cases ts with
          | nil => simp [AsyncRateLimiter.completions] at h0'
          | cons t0 ts0 => exact completions_head_ge m _ t0 ts0 h0'
        have hget0 : (AsyncRateLimiter.completions m l (t :: ts)).get ⟨0, hi⟩ =
            AsyncRateLimiter.acquire m l t := by
          simp [AsyncRateLimiter.completions]
        have hgetS : (AsyncRateLimiter.completions m l (t :: ts)).get ⟨j' + 1, hj⟩ =
            (AsyncRateLimiter.completions m (AsyncRateLimiter.acquire m l t) ts).get
              ⟨j', hj'⟩ := by
          simp [AsyncRateLimiter.completions]
        rw [hget0, hgetS]
        have hcast : ((j' + 1 - 0 : ℕ) : ℚ) = (j' : ℚ) + 1 := by
          push_cast [Nat.sub_zero]
          ring
        rw [hcast]
        have hcast' : ((j' - 0 : ℕ) : ℚ) = (j' : ℚ) := by
          push_cast [Nat.sub_zero]
          ring
        rw [hcast'] at hIH
        linarith
      | succ i' =>
        have hij' : i' ≤ j' := Nat.succ_le_succ_iff.mp hij
        have hi' : i' < (AsyncRateLimiter.completions m
            (AsyncRateLimiter.acquire m l t) ts).length := by
          have := hi
          simpa [AsyncRateLimiter.completions] using this
        have hj' : j' < (AsyncRateLimiter.completions m
            (AsyncRateLimiter.acquire m l t) ts).length := by
          have := hj
          simpa [AsyncRateLimiter.completions] using this
        have hIH := ih (AsyncRateLimiter.acquire m l t) i' j' hi' hj' hij'
        have hgi : (AsyncRateLimiter.completions m l (t :: ts)).get ⟨i' + 1, hi⟩ =
            (AsyncRateLimiter.completions m (AsyncRateLimiter.acquire m l t) ts).get
              ⟨i', hi'⟩ := by
          simp [AsyncRateLimiter.completions]
        have hgj : (AsyncRateLimiter.completions m l (t :: ts)).get ⟨j' + 1, hj⟩ =
            (AsyncRateLimiter.completions m (AsyncRateLimiter.acquire m l t) ts).get
              ⟨j', hj'⟩ := by
          simp [AsyncRateLimiter.completions]
        rw [hgi, hgj]
        simpa [Nat.succ_sub_succ] using hIH

/-- C5: with `requests_per_second = r > 0` the completion instants of any run
of protected acquisitions on one limiter are spaced so that the i-th and j-th
completions (i ≤ j) differ by at least `(j-i)/r` — in particular the 1st and
Nth by `(N-1)/r`; with `r ≤ 0` (and a monotone clock) `acquire` admits the
call at its arrival instant, i.e. never waits. -/
theorem claim_C5_rate_limiter_spacing :
    (∀ (r last : ℚ) (ts : List ℚ) (i j : ℕ)
        (hi : i < (AsyncRateLimiter.completions (min_interval r) last ts).length)
        (hj : j < (AsyncRateLimiter.completions (min_interval r) last ts).length),
        0 < r → i ≤ j →
        (AsyncRateLimiter.completions (min_interval r) last ts).get ⟨i, hi⟩ +
            ((j - i : ℕ) : ℚ) / r ≤
          (AsyncRateLimiter.completions (min_interval r) last ts).get ⟨j, hj⟩) ∧
    (∀ (r last now : ℚ), r ≤ 0 → last ≤ now →
        AsyncRateLimiter.acquire (min_interval r) last now = now) := by
  constructor
  · intro r last ts i j hi hj hr hij
    have h := completions_spread (min_interval r) ts last i j hi hj hij
    have hm : min_interval r = 1 / r := by simp [min_interval, hr]
    have heq : ((j - i : ℕ) : ℚ) / r = ((j - i : ℕ) : ℚ) * min_interval r := by
      rw [hm]
      ring
    rw [heq]
    exact h
  · intro r last now hr hln
    have hnot : ¬ (r > 0) := not_lt.mpr hr
    have hm : min_interval r = 0 := by simp [min_interval, hnot]
    have hcond : ¬ (now - last < (0 : ℚ)) := by linarith
    simp only [AsyncRateLimiter.acquire, hm, if_neg hcond]

/-- C5 witness: rate 2/sec, three arrivals at instant 0 — the 1st and 3rd
completions are at least `2 · (1/2) = 1` second apart; and a negative rate
never waits. -/
theorem claim_C5_witness :
    ((0 : ℚ) < 2 ∧
      (AsyncRateLimiter.completions (min_interval 2) 0 [0, 0, 0]).get
          ⟨0, by rw [completions_length]; norm_num⟩ + ((2 - 0 : ℕ) : ℚ) / 2 ≤
        (AsyncRateLimiter.completions (min_interval 2) 0 [0, 0, 0]).get
          ⟨2, by rw [completions_length]; norm_num⟩) ∧
    ((- 1 : ℚ) ≤ 0 ∧ (5 : ℚ) ≤ 7 ∧
      AsyncRateLimiter.acquire (min_interval (- 1)) 5 7 = 7) := by
  refine ⟨⟨by norm_num, ?_⟩, by norm_num, by norm_num, ?_⟩
  · exact claim_C5_rate_limiter_spacing.1 2 0 [0, 0, 0] 0 2
      (by rw [completions_length]; norm_num)
      (by rw [completions_length]; norm_num) (by norm_num) (by norm_num)
  · exact claim_C5_rate_limiter_spacing.2 (- 1) 5 7 (by norm_num) (by norm_num)

/-! ## C2: `_merge_search_results` -/

theorem mergeDedup_spec (l : List Chunk) : ∀ (seen : List String),
    ∀ c ∈ mergeDedup l seen, ∃ cid, c.chunk_id = some cid ∧ cid ≠ "" ∧
      cid ∉ seen ∧
      l.find? (fun x => decide (x.chunk_id = some cid)) = some c := by
  induction l with
  | nil => simp [mergeDedup]
  | cons c0 rest ih =>
    intro seen c hc
    cases h0 : c0.chunk_id with
    | none =>
      rw [mergeDedup, h0] at hc
      obtain ⟨cid, h1, h2, h3, h4⟩ := ih seen c hc
      refine ⟨cid, h1, h2, h3, ?_⟩
      rw [List.find?_cons_of_neg, h4]
      simp [h0]
    | some cid0 =>
      by_cases hskip : cid0 = "" ∨ cid0 ∈ seen
      · have hc' : c ∈ mergeDedup rest seen := by
          rw [mergeDedup, h0] at hc
          rcases hskip with h | h <;> simpa [h] using hc
        obtain ⟨cid, h1, h2, h3, h4⟩ := ih seen c hc'
        have hne : cid ≠ cid0 := by
          rcases hskip with h | h
          · rw [h]; exact h2
          · intro he; exact h3 (he ▸ h)
        refine ⟨cid, h1, h2, h3, ?_⟩
        have hfalse : decide (c0.chunk_id = some cid) = false := by
          simp only [h0, decide_eq_false_iff_not, Option.some.injEq]
          exact fun he => hne he.symm
        rw [List.find?_cons]
        simp [hfalse, h4]
      · push_neg at hskip
        have hc' : c ∈ c0 :: mergeDedup rest (cid0 :: seen) := by
          rw [mergeDedup, h0] at hc
          simpa [hskip.1, hskip.2] using hc
        rcases List.mem_cons.mp hc' with rfl | hmem
        · refine ⟨cid0, h0, hskip.1, hskip.2, ?_⟩
          rw [List.find?_cons_of_pos]
          simp [h0]
        · obtain ⟨cid, h1, h2, h3, h4⟩ := ih (cid0 :: seen) c hmem
          have hne : cid ≠ cid0 := fun he => h3 (by rw [he]; exact List.mem_cons_self _ _)
          refine ⟨cid, h1, h2, fun hs => h3 (List.mem_cons_of_mem _ hs), ?_⟩
          have hfalse : decide (c0.chunk_id = some cid) = false := by
            simp only [h0, decide_eq_false_iff_not, Option.some.injEq]
            exact fun he => hne he.symm
          rw [List.find?_cons]
          simp [hfalse, h4]

theorem mergeDedup_pairwise (l : List Chunk) : ∀ (seen : List String),
    (mergeDedup l seen).Pairwise (fun a b => a.chunk_id ≠ b.chunk_id) := by
  induction l with
  | nil => intro seen; simp [mergeDedup]
  | cons c0 rest ih =>
    intro seen
    cases h0 : c0.chunk_id with
    | none => rw [mergeDedup, h0]; exact ih seen
    | some cid0 =>
      by_cases hskip : cid0 = "" ∨ cid0 ∈ seen
      · rw [mergeDedup, h0]
        rcases hskip with h | h <;> simpa [h] using ih seen
      · push_neg at hskip
        rw [mergeDedup, h0]
        simp only [hskip.1, hskip.2, decide_not]
        rw [if_neg (by simp [hskip.1, hskip.2])]
        refine List.Pairwise.cons ?_ (ih (cid0 :: seen))
        intro b hb
        obtain ⟨cid, h1, _, h3, _⟩ := mergeDedup_spec rest (cid0 :: seen) b hb
        rw [h0, h1]
        intro he
        exact h3 (by injection he with he'; rw [he']; exact List.mem_cons_self _ _)

/-- C2 counterexample: the two search lists both contain chunk id "A"; the
second occurrence has the higher score (0.9 > 0.3), yet the merge keeps the
first-seen entry with score 0.3 — dedup does NOT keep the highest score. -/
theorem claim_C2_counterexample :
    _merge_search_results [chunkA1] [chunkA2] 5 = [chunkA1] ∧
    chunkBaseScore chunkA1 < chunkBaseScore chunkA2 := by
  constructor
  · rfl
  · norm_num [chunkBaseScore, chunkA1, chunkA2]


/-- C2 amended: the merged list is deduplicated by chunk id keeping, for each
id, the FIRST-seen entry (results1 before results2; entries with a missing or
empty id are dropped); it is sorted by score descending and capped at
`max_results` (`3×` the final budget at the call site). -/
theorem claim_C2_merge_spec (results1 results2 : List Chunk) (max_results : ℕ) :
    (_merge_search_results results1 results2 max_results).length ≤ max_results ∧
    (_merge_search_results results1 results2 max_results).Sorted
      (fun a b => chunkBaseScore b ≤ chunkBaseScore a) ∧
    (_merge_search_results results1 results2 max_results).Pairwise
      (fun a b => a.chunk_id ≠ b.chunk_id) ∧
    (∀ c ∈ _merge_search_results results1 results2 max_results,
      ∃ cid, c.chunk_id = some cid ∧ cid ≠ "" ∧
        (results1 ++ results2).find?
          (fun x => decide (x.chunk_id = some cid)) = some c) := by
  refine ⟨List.length_take_le _ _, ?_, ?_, ?_⟩
  · exact ((List.sorted_insertionSort _ _).sublist (List.take_sublist _ _))
  · have hperm := List.perm_insertionSort
      (fun a b : Chunk => chunkBaseScore b ≤ chunkBaseScore a)
      (mergeDedup (results1 ++ results2) [])
    have hpw := (hperm.pairwise_iff
      (fun h => Ne.symm h)).mpr (mergeDedup_pairwise (results1 ++ results2) [])
    exact hpw.sublist (List.take_sublist _ _)
  · intro c hc
    have hc1 : c ∈ mergeDedup (results1 ++ results2) [] := by
      have := (List.take_sublist _ _).subset hc
      simpa using this
    obtain ⟨cid, h1, h2, _, h4⟩ := mergeDedup_spec (results1 ++ results2) [] c hc1
    exact ⟨cid, h1, h2, h4⟩

/-- C2 witness: a concrete merge of three chunks over two ids, checking the
cap, sortedness, and that the kept "B" entry is the first occurrence. -/
theorem claim_C2_witness :
    (_merge_search_results [chunkA1, chunkB] [chunkA2] 2).length ≤ 2 ∧
    (_merge_search_results [chunkA1, chunkB] [chunkA2] 2).Sorted
      (fun a b => chunkBaseScore b ≤ chunkBaseScore a) ∧
    ([chunkA1, chunkB] ++ [chunkA2]).find?
      (fun x => decide (x.chunk_id = some "B")) = some chunkB := by
  have h := claim_C2_merge_spec [chunkA1, chunkB] [chunkA2] 2
  refine ⟨h.1, h.2.1, ?_⟩
  have hmem : chunkB ∈ _merge_search_results [chunkA1, chunkB] [chunkA2] 2 := by
    have heval : _merge_search_results [chunkA1, chunkB] [chunkA2] 2 =
        [chunkB, chunkA1] := by
      simp [_merge_search_results, mergeDedup, List.insertionSort, List.orderedInsert,
        chunkA1, chunkA2, chunkB, chunkBaseScore]
      norm_num
    rw [heval]
    exact List.mem_cons_self _ _
  obtain ⟨cid, h1, _, h4⟩ := h.2.2.2 chunkB hmem
  have : cid = "B" := by
    have := h1.symm.trans (rfl : chunkB.chunk_id = some "B")
    injection this
  rw [this] at h4
  exact h4

/-! ## C7: metadata-query re-ranking -/

/-- C7: for a metadata-style question, a `title` chunk with original score 0.5
strictly outranks a `content` chunk with original score 0.9 when every other
re-ranking signal (keyword density, page, chunk index, length) agrees, and
`_rerank_results` therefore returns the title chunk first. -/
theorem claim_C7_title_outranks_content (q : String) (ct cc : Chunk) (k : ℕ)
    (hq : isMetadataQuery q = true)
    (hts : chunkSectionType ct = "title")
    (hcs : chunkSectionType cc = "content")
    (hbt : chunkBaseScore ct = 1 / 2)
    (hbc : chunkBaseScore cc = 9 / 10)
    (hkd : chunkKeywordDensity ((splitWords (toLowerStr q)).toFinset) ct =
      chunkKeywordDensity ((splitWords (toLowerStr q)).toFinset) cc)
    (hps : chunkPageScore ct = chunkPageScore cc)
    (his : chunkIndexScore ct = chunkIndexScore cc)
    (hls : chunkLengthScore ct = chunkLengthScore cc)
    (hk : 1 ≤ k) :
    rerankScore q cc < rerankScore q ct ∧
    (_rerank_results q [cc, ct] k).head? = some (rerankUpdate q ct) := by
  have hsec_t : chunkSectionScore true ct = 1 := by
    simp [chunkSectionScore, hts]
  have hsec_c : chunkSectionScore true cc = 0 := by
    simp [chunkSectionScore, hcs]
  have hlt : rerankScore q cc < rerankScore q ct := by
    rw [rerankScore, rerankScore]
    simp only [hq, if_true]
    rw [hbt, hbc, hkd, hps, his, hls, hsec_t, hsec_c]
    have h1 : (0.15 : ℚ) * (9 / 10) + 0.3 * 0 < 0.15 * (1 / 2) + 0.3 * 1 := by norm_num
    linarith
  refine ⟨hlt, ?_⟩
  have hnot : ¬ ((rerankUpdate q ct).rerank_score.getD 0 ≤
      (rerankUpdate q cc).rerank_score.getD 0) := by
    simp only [rerankUpdate, Option.getD_some]
    exact not_le.mpr hlt
  have hsort : ([cc, ct].map (rerankUpdate q)).insertionSort
      (fun a b => b.rerank_score.getD 0 ≤ a.rerank_score.getD 0) =
      [rerankUpdate q ct, rerankUpdate q cc] := by
    simp only [List.map, List.insertionSort, List.orderedInsert]
    rw [if_neg hnot]
  rw [_rerank_results]
  simp only [List.isEmpty_cons, if_false, Bool.false_eq_true]
  rw [hsort]
  cases k with
  | zero => omega
  | succ k' => simp [List.take]

/-- C7 witness: the spec's example question over two concrete chunks. -/
theorem claim_C7_witness :
    isMetadataQuery questionW = true ∧
    rerankScore questionW contentChunkW < rerankScore questionW titleChunkW ∧
    (_rerank_results questionW [contentChunkW, titleChunkW] 2).head? =
      some (rerankUpdate questionW titleChunkW) := by
  have hq : isMetadataQuery questionW = true := by decide
  have h := claim_C7_title_outranks_content questionW titleChunkW contentChunkW 2
    hq rfl rfl rfl rfl rfl rfl rfl rfl (by norm_num)
  exact ⟨hq, h.1, h.2⟩

/-! ## C8: the `answer_question` dict contract -/

/-- C8 counterexample: the standard-path result has no `search_type` key, and
the error-path result has neither `processing_time` nor `sources_used` nor
`search_type` — the claimed seven-field contract fails on those paths. -/
theorem claim_C8_counterexample :
    ((answer_question answerEnvStdW false).lookup "answer").isSome = true ∧
    (answer_question answerEnvStdW false).lookup "search_type" = none ∧
    (answer_question answerEnvErrW false).lookup "processing_time" = none ∧
    (answer_question answerEnvErrW false).lookup "sources_used" = none ∧
    (answer_question answerEnvErrW false).lookup "search_type" = none := by
  refine ⟨rfl, rfl, rfl, rfl, rfl⟩

/-- C8 amended: every path returns `answer`, `pdf_references`,
`web_references` and `quality_metrics`; `search_type` is present exactly on a
successful deep-search path; `processing_time` and `sources_used` are present
exactly when the deep-search path succeeds or the standard path does not
raise (the error dict carries only the four fields plus `error`). -/
theorem claim_C8_result_contract (env : AnswerEnv) (use_deep : Bool) :
    (((answer_question env use_deep).lookup "answer").isSome = true ∧
     ((answer_question env use_deep).lookup "pdf_references").isSome = true ∧
     ((answer_question env use_deep).lookup "web_references").isSome = true ∧
     ((answer_question env use_deep).lookup "quality_metrics").isSome = true) ∧
    (((answer_question env use_deep).lookup "search_type").isSome = true ↔
      (use_deep = true ∧ env.deep_engine_available = true ∧
        env.deep_outcome.isSome = true)) ∧
    ((((answer_question env use_deep).lookup "processing_time").isSome = true ∧
      ((answer_question env use_deep).lookup "sources_used").isSome = true) ↔
      ((use_deep = true ∧ env.deep_engine_available = true ∧
        env.deep_outcome.isSome = true) ∨ env.standard_outcome.isSome = true)) := by
  rcases env with ⟨de, dout, sout, emsg⟩
  cases use_deep <;> cases de <;> cases dout <;> cases sout <;>
    simp [answer_question, standardResultDict, errorResultDict, deepResultDict,
      List.lookup]

/-! ## C6: diverse selection covers every source within the budget -/

theorem fp_prefix (max_papers : ℕ) :
    ∀ (papers sel : List PaperResult) (used : List String),
      sel <+: (diverseFirstPass max_papers papers sel used).1 := by
  intro papers
  induction papers with
  | nil => intro sel used; exact List.prefix_refl _
  | cons p rest ih =>
    intro sel used
    simp only [diverseFirstPass]
    by_cases hfull : max_papers ≤ sel.length
    · rw [if_pos hfull]
    · rw [if_neg hfull]
      by_cases hmem : p.source ∈ used
      · rw [if_pos hmem]; exact ih sel used
      · rw [if_neg hmem]
        exact (List.prefix_append sel [p]).trans (ih (sel ++ [p]) (used ++ [p.source]))

theorem fp_length (max_papers : ℕ) :
    ∀ (papers sel : List PaperResult) (used : List String),
      sel.length ≤ max_papers →
      (diverseFirstPass max_papers papers sel used).1.length ≤ max_papers := by
  intro papers
  induction papers with
  | nil => intro sel used h; exact h
  | cons p rest ih =>
    intro sel used h
    simp only [diverseFirstPass]
    by_cases hfull : max_papers ≤ sel.length
    · rw [if_pos hfull]; exact h
    · rw [if_neg hfull]
      by_cases hmem : p.source ∈ used
      · rw [if_pos hmem]; exact ih sel used h
      · rw [if_neg hmem]
        refine ih (sel ++ [p]) (used ++ [p.source]) ?_
        have : sel.length < max_papers := lt_of_not_le hfull
        simp only [List.length_append, List.length_cons, List.length_nil]
        omega

theorem fp_covers (max_papers : ℕ) (allSrc : Finset String) :
    ∀ (papers sel : List PaperResult) (used : List String),
      used = sel.map (fun p => p.source) →
      used.Nodup →
      (∀ u ∈ used, u ∈ allSrc) →
      (∀ q ∈ papers, q.source ∈ allSrc) →
      allSrc.card ≤ max_papers →
      ∀ q ∈ papers, ∃ p ∈ (diverseFirstPass max_papers papers sel used).1,
        p.source = q.source := by
  intro papers
  induction papers with
  | nil => intro sel used _ _ _ _ _ q hq; exact absurd hq (List.not_mem_nil q)
  | cons p rest ih =>
    intro sel used hused hnd hsub hall hcard q hq
    simp only [diverseFirstPass]
    by_cases hfull : max_papers ≤ sel.length
    · rw [if_pos hfull]
      have hlen : used.toFinset.card = used.length := List.toFinset_card_of_nodup hnd
      have hlen2 : used.length = sel.length := by rw [hused]; simp
      have hsubF : used.toFinset ⊆ allSrc := fun u hu =>
        hsub u (List.mem_toFinset.mp hu)
      have hcard2 : allSrc.card ≤ used.toFinset.card := by omega
      have heq : used.toFinset = allSrc := Finset.eq_of_subset_of_card_le hsubF hcard2
      have hqs : q.source ∈ used := by
        rw [← List.mem_toFinset, heq]
        exact hall q hq
      rw [hused] at hqs
      obtain ⟨r, hr, hrs⟩ := List.mem_map.mp hqs
      exact ⟨r, hr, hrs⟩
    · rw [if_neg hfull]
      by_cases hmem : p.source ∈ used
      · rw [if_pos hmem]
        rcases List.mem_cons.mp hq with rfl | hq'
        · have hqs : q.source ∈ sel.map (fun p => p.source) := hused ▸ hmem
          obtain ⟨r, hr, hrs⟩ := List.mem_map.mp hqs
          obtain ⟨ext, hext⟩ := fp_prefix max_papers rest sel used
          exact ⟨r, by rw [← hext]; exact List.mem_append_left _ hr, hrs⟩
        · exact ih sel used hused hnd hsub (fun x hx => hall x (List.mem_cons_of_mem _ hx))
            hcard q hq'
      · rw [if_neg hmem]
        have hps : p.source ∈ allSrc := hall p (List.mem_cons_self _ _)
        have hused' : used ++ [p.source] = (sel ++ [p]).map (fun r => r.source) := by
          rw [hused, List.map_append]
          simp
        have hnd' : (used ++ [p.source]).Nodup := by
          simp [List.nodup_append, hnd, hmem]
        have hsub' : ∀ u ∈ used ++ [p.source], u ∈ allSrc := by
          intro u hu
          rcases List.mem_append.mp hu with h | h
          · exact hsub u h
          · rw [List.mem_singleton.mp h]; exact hps
        rcases List.mem_cons.mp hq with rfl | hq'
        · obtain ⟨ext, hext⟩ := fp_prefix max_papers rest (sel ++ [q]) (used ++ [q.source])
          refine ⟨q, ?_, rfl⟩
          rw [← hext]
          exact List.mem_append_left _ (List.mem_append_right _ (List.mem_singleton_self q))
        · exact ih (sel ++ [p]) (used ++ [p.source]) hused' hnd' hsub'
            (fun x hx => hall x (List.mem_cons_of_mem _ hx)) hcard q hq'

theorem sp_prefix (max_papers : ℕ) :
    ∀ (papers sel : List PaperResult),
      sel <+: diverseSecondPass max_papers papers sel := by
  intro papers
  induction papers with
  | nil => intro sel; exact List.prefix_refl _
  | cons p rest ih =>
    intro sel
    simp only [diverseSecondPass]
    by_cases hfull : max_papers ≤ sel.length
    · rw [if_pos hfull]
    · rw [if_neg hfull]
      by_cases hmem : p ∈ sel
      · rw [if_pos hmem]; exact ih sel
      · rw [if_neg hmem]
        exact (List.prefix_append sel [p]).trans (ih (sel ++ [p]))

/-- C6: when the candidates span at most `max_papers` distinct sources,
`_select_diverse_papers` returns at most `max_papers` papers and contains at
least one paper from every source present among the candidates — regardless
of how the scores are distributed across sources. -/
theorem claim_C6_diverse_selection (papers : List PaperResult) (max_papers : ℕ)
    (hk : (papers.map (fun p => p.source)).toFinset.card ≤ max_papers) :
    (_select_diverse_papers papers max_papers).length ≤ max_papers ∧
    ∀ q ∈ papers, ∃ p ∈ _select_diverse_papers papers max_papers,
      p.source = q.source := by
  constructor
  · exact List.length_take_le _ _
  · intro q hq
    have hcov := fp_covers max_papers (papers.map (fun p => p.source)).toFinset
      papers [] [] rfl List.nodup_nil (by simp)
      (fun r hr => List.mem_toFinset.mpr (List.mem_map_of_mem _ hr)) hk q hq
    obtain ⟨r, hr, hrs⟩ := hcov
    have hfpLen : (diverseFirstPass max_papers papers [] []).1.length ≤ max_papers :=
      fp_length max_papers papers [] [] (by simp)
    obtain ⟨ext, hext⟩ := sp_prefix max_papers papers (diverseFirstPass max_papers papers [] []).1
    refine ⟨r, ?_, hrs⟩
    unfold _select_diverse_papers
    show r ∈ List.take max_papers
      (diverseSecondPass max_papers papers (diverseFirstPass max_papers papers [] []).1)
    rw [← hext, List.take_append_eq_append_take, List.take_of_length_le hfpLen]
    exact List.mem_append_left _ hr

/-- C6 witness: three candidates from one source outscoring single candidates
from two others; with budget 3 every source still gets a representative. -/
theorem claim_C6_witness :
    (papersSrcW.map (fun p => p.source)).toFinset.card ≤ 3 ∧
    (_select_diverse_papers papersSrcW 3).length ≤ 3 ∧
    (∃ p ∈ _select_diverse_papers papersSrcW 3, p.source = "pubmed") ∧
    (∃ p ∈ _select_diverse_papers papersSrcW 3, p.source = "core") := by
  have hk : (papersSrcW.map (fun p => p.source)).toFinset.card ≤ 3 := by
    simp [papersSrcW, pA1, pA2, pA3, pB, pC]
  have h := claim_C6_diverse_selection papersSrcW 3 hk
  refine ⟨hk, h.1, ?_, ?_⟩
  · exact h.2 pB (by simp [papersSrcW])
  · exact h.2 pC (by simp [papersSrcW])

/-! ## C1: deep-search failure semantics -/

/-- C1 counterexample: `search_all` raises inside hop 0, yet `deep_search`
returns `ok` — with hop 0 (and thus the whole paper list) empty — instead of
propagating the exception; the claimed abort-and-propagate behaviour fails. -/
theorem claim_C1_counterexample :
    envHop0FailW.search_all = Except.error "api down" ∧
    deep_search envHop0FailW cfgW "q" [] none none =
      Except.ok (deepSearchBody envHop0FailW cfgW "q" [] none none) ∧
    (deepSearchBody envHop0FailW cfgW "q" [] none none).papers = [] := by
  refine ⟨rfl, rfl, ?_⟩
  simp [deepSearchBody, _hop_0_initial_search, envHop0FailW, envOkW]

/-- C1 amended: exceptions raised inside the stage helpers (local search,
hop 0/1/2 collaborator calls) are caught there and turned into empty stage
results, so `deep_search` still returns `ok` — a partial result; only an
exception in the orchestration body outside those handlers (modelled by the
progress callback) propagates to the caller.  In particular a hop-0 failure
yields `ok` with an empty paper list. -/
theorem claim_C1_error_containment :
    (∀ (env : DeepEnv) (cfg : DeepSettings) (q : String) (cs : List String)
        (mh mp : Option ℕ),
        (∀ e, env.progress ≠ some (Except.error e)) →
        ∃ r, deep_search env cfg q cs mh mp = Except.ok r) ∧
    (∀ (env : DeepEnv) (cfg : DeepSettings) (q : String) (cs : List String)
        (mh mp : Option ℕ) (e : String),
        env.progress = some (Except.error e) →
        deep_search env cfg q cs mh mp = Except.error e) ∧
    (∀ (env : DeepEnv) (cfg : DeepSettings) (q : String) (cs : List String)
        (mh mp : Option ℕ),
        (∀ e, env.progress ≠ some (Except.error e)) →
        env.search_all.isOk = false →
        ∃ r, deep_search env cfg q cs mh mp = Except.ok r ∧ r.papers = []) := by
  refine ⟨?_, ?_, ?_⟩
  · intro env cfg q cs mh mp hp
    unfold deep_search
    cases hpr : env.progress with
    | none => exact ⟨_, rfl⟩
    | some x =>
      cases x with
      | error e => exact absurd hpr (hp e)
      | ok u => exact ⟨_, rfl⟩
  · intro env cfg q cs mh mp e hpr
    unfold deep_search
    rw [hpr]
  · intro env cfg q cs mh mp hp hsa
    obtain ⟨m, hm⟩ : ∃ m, env.search_all = Except.error m := by
      cases h : env.search_all with
      | ok l =>
        rw [h] at hsa
        have hb : (true : Bool) = false := hsa
        simp at hb
      | error m => exact ⟨m, rfl⟩
    have hhop0 : ∀ k, _hop_0_initial_search env cs k = [] := by
      intro k
      unfold _hop_0_initial_search
      rw [hm]
    have hbody : (deepSearchBody env cfg q cs mh mp).papers = [] := by
      simp [deepSearchBody, hhop0]
    unfold deep_search
    cases hpr : env.progress with
    | none => exact ⟨_, rfl, hbody⟩
    | some x =>
      cases x with
      | error e => exact absurd hpr (hp e)
      | ok u => exact ⟨_, rfl, hbody⟩

/-- C1 witness: the three containment conclusions at concrete environments —
healthy run returns `ok`, a raising callback propagates, a hop-0 failure
still returns `ok` with an empty paper list. -/
theorem claim_C1_witness :
    (∃ r, deep_search envOkW cfgW "q" [] none none = Except.ok r) ∧
    deep_search envCbFailW cfgW "q" [] none none = Except.error "cb" ∧
    (∃ r, deep_search envHop0FailW cfgW "q" [] none none = Except.ok r ∧
      r.papers = []) := by
  refine ⟨claim_C1_error_containment.1 envOkW cfgW "q" [] none none ?_,
    claim_C1_error_containment.2.1 envCbFailW cfgW "q" [] none none "cb" rfl,
    claim_C1_error_containment.2.2 envHop0FailW cfgW "q" [] none none ?_ rfl⟩
  · intro e he
    simp [envOkW] at he
  · intro e he
    simp [envHop0FailW, envOkW] at he

/-! ## C3: no paper id is selected by more than one hop -/

theorem score_papers_mem (y : Int) (l : List PaperResult) (cs : List String)
    (p : PaperResult) (hp : p ∈ _score_papers y l cs) :
    ∃ q ∈ l, p.paper_id = q.paper_id := by
  unfold _score_papers at hp
  rw [List.mem_insertionSort] at hp
  obtain ⟨q, hq, rfl⟩ := List.mem_map.mp hp
  exact ⟨q, hq, rfl⟩

theorem fp_mem (k : ℕ) :
    ∀ (papers sel : List PaperResult) (used : List String),
      ∀ p ∈ (diverseFirstPass k papers sel used).1, p ∈ sel ∨ p ∈ papers := by
  intro papers
  induction papers with
  | nil => intro sel used p hp; exact Or.inl hp
  | cons p0 rest ih =>
    intro sel used p hp
    simp only [diverseFirstPass] at hp
    by_cases hfull : k ≤ sel.length
    · rw [if_pos hfull] at hp; exact Or.inl hp
    · rw [if_neg hfull] at hp
      by_cases hmem : p0.source ∈ used
      · rw [if_pos hmem] at hp
        rcases ih sel used p hp with h | h
        · exact Or.inl h
        · exact Or.inr (List.mem_cons_of_mem _ h)
      · rw [if_neg hmem] at hp
        rcases ih (sel ++ [p0]) (used ++ [p0.source]) p hp with h | h
        · rcases List.mem_append.mp h with h' | h'
          · exact Or.inl h'
          · exact Or.inr (by rw [List.mem_singleton.mp h']; exact List.mem_cons_self _ _)
        · exact Or.inr (List.mem_cons_of_mem _ h)

theorem sp_mem (k : ℕ) :
    ∀ (papers sel : List PaperResult),
      ∀ p ∈ diverseSecondPass k papers sel, p ∈ sel ∨ p ∈ papers := by
  intro papers
  induction papers with
  | nil => intro sel p hp; exact Or.inl hp
  | cons p0 rest ih =>
    intro sel p hp
    simp only [diverseSecondPass] at hp
    by_cases hfull : k ≤ sel.length
    · rw [if_pos hfull] at hp; exact Or.inl hp
    · rw [if_neg hfull] at hp
      by_cases hmem : p0 ∈ sel
      · rw [if_pos hmem] at hp
        rcases ih sel p hp with h | h
        · exact Or.inl h
        · exact Or.inr (List.mem_cons_of_mem _ h)
      · rw [if_neg hmem] at hp
        rcases ih (sel ++ [p0]) p hp with h | h
        · rcases List.mem_append.mp h with h' | h'
          · exact Or.inl h'
          · exact Or.inr (by rw [List.mem_singleton.mp h']; exact List.mem_cons_self _ _)
        · exact Or.inr (List.mem_cons_of_mem _ h)

theorem select_diverse_mem (l : List PaperResult) (k : ℕ) :
    ∀ p ∈ _select_diverse_papers l k, p ∈ l := by
  intro p hp
  simp only [_select_diverse_papers] at hp
  have hp2 := (List.take_sublist _ _).subset hp
  rcases sp_mem k l _ p hp2 with h | h
  · rcases fp_mem k l [] [] p h with h' | h'
    · exact absurd h' (List.not_mem_nil p)
    · exact h'
  · exact h

theorem gather_mem (f : String → String → Except String (List PaperResult)) :
    ∀ (seeds all : List PaperResult),
      gatherFromSeeds f seeds = Except.ok all → ∀ q ∈ all,
      ∃ s ∈ seeds, ∃ l, f s.paper_id s.source = Except.ok l ∧ q ∈ l := by
  intro seeds
  induction seeds with
  | nil =>
    intro all hall q hq
    simp only [gatherFromSeeds] at hall
    injection hall with h
    rw [← h] at hq
    exact absurd hq (List.not_mem_nil q)
  | cons s rest ih =>
    intro all hall q hq
    simp only [gatherFromSeeds] at hall
    cases hf : f s.paper_id s.source with
    | error m => rw [hf] at hall; simp [Bind.bind, Except.bind] at hall
    | ok cs =>
      rw [hf] at hall
      cases hg : gatherFromSeeds f rest with
      | error m =>
        rw [hg] at hall
        simp [Bind.bind, Except.bind, Functor.map, Except.map] at hall
      | ok more =>
        rw [hg] at hall
        simp only [Bind.bind, Except.bind, Functor.map, Except.map] at hall
        injection hall with h
        rw [← h] at hq
        rcases List.mem_append.mp hq with hql | hqr
        · exact ⟨s, List.mem_cons_self _ _, cs, hf, hql⟩
        · obtain ⟨s', hs', l, hl, hql⟩ := ih more hg q hqr
          exact ⟨s', List.mem_cons_of_mem _ hs', l, hl, hql⟩

theorem hop0_ids (env : DeepEnv) (cs : List String) (k : ℕ) (p : PaperResult)
    (hp : p ∈ _hop_0_initial_search env cs k) :
    ∃ l, env.search_all = Except.ok l ∧ ∃ q ∈ l, p.paper_id = q.paper_id := by
  unfold _hop_0_initial_search at hp
  cases h : env.search_all with
  | error m => rw [h] at hp; exact absurd hp (List.not_mem_nil p)
  | ok l =>
    rw [h] at hp
    have h1 := select_diverse_mem _ _ p hp
    obtain ⟨q, hq, hid⟩ := score_papers_mem _ _ _ p h1
    exact ⟨l, rfl, q, hq, hid⟩

theorem hop1_ids (env : DeepEnv) (seeds : List PaperResult) (k : ℕ)
    (visited : List String) (p : PaperResult)
    (hp : p ∈ _hop_1_backward_citations env seeds k visited) :
    p.paper_id ∉ visited ∧
    ∃ q, (∃ s ∈ seeds, ∃ l, env.get_citations s.paper_id s.source = Except.ok l ∧
      q ∈ l) ∧ p.paper_id = q.paper_id := by
  unfold _hop_1_backward_citations at hp
  cases hg : gatherFromSeeds env.get_citations seeds with
  | error m => rw [hg] at hp; exact absurd hp (List.not_mem_nil p)
  | ok all =>
    rw [hg] at hp
    simp only [_llm_select_papers] at hp
    split at hp
    · exact absurd hp (List.not_mem_nil p)
    · have hp2 := (List.take_sublist _ _).subset hp
      obtain ⟨q, hq, hid⟩ := score_papers_mem _ _ _ p hp2
      have hqf := List.mem_filter.mp hq
      refine ⟨?_, q, gather_mem _ seeds all hg q hqf.1, hid⟩
      rw [hid]
      exact of_decide_eq_true hqf.2

theorem hop2_ids (env : DeepEnv) (settings : DeepSettings)
    (seeds : List PaperResult) (k : ℕ) (visited : List String) (p : PaperResult)
    (hp : p ∈ _hop_2_forward_citations env settings seeds k visited) :
    p.paper_id ∉ visited ∧
    ∃ q, (∃ s ∈ seeds, ∃ l, env.get_cited_by s.paper_id s.source = Except.ok l ∧
      q ∈ l) ∧ p.paper_id = q.paper_id := by
  unfold _hop_2_forward_citations at hp
  cases hg : gatherFromSeeds env.get_cited_by seeds with
  | error m => rw [hg] at hp; exact absurd hp (List.not_mem_nil p)
  | ok all =>
    rw [hg] at hp
    simp only [_llm_select_papers] at hp
    cases hrec : settings.recent_papers_only with
    | false =>
      simp only [hrec, Bool.false_eq_true, if_false] at hp
      split at hp
      · exact absurd hp (List.not_mem_nil p)
      · have hp2 := (List.take_sublist _ _).subset hp
        obtain ⟨q, hq, hid⟩ := score_papers_mem _ _ _ p hp2
        have hqf := List.mem_filter.mp hq
        refine ⟨?_, q, gather_mem _ seeds all hg q hqf.1, hid⟩
        rw [hid]
        exact of_decide_eq_true hqf.2
    | true =>
      simp only [hrec, if_true] at hp
      split at hp
      · exact absurd hp (List.not_mem_nil p)
      · have hp2 := (List.take_sublist _ _).subset hp
        obtain ⟨q, hq, hid⟩ := score_papers_mem _ _ _ p hp2
        have hqf := List.mem_filter.mp hq
        have hqall : q ∈ all := (List.mem_filter.mp hqf.1).1
        refine ⟨?_, q, gather_mem _ seeds all hg q hqall, hid⟩
        rw [hid]
        exact of_decide_eq_true hqf.2

theorem local_ids (env : DeepEnv) (lp : PaperResult)
    (hlp : lp ∈ _search_local_knowledge env) :
    ∃ d, lp.paper_id = "local_" ++ d := by
  unfold _search_local_knowledge at hlp
  cases h : env.search_similar with
  | error m => rw [h] at hlp; exact absurd hlp (List.not_mem_nil lp)
  | ok hits =>
    rw [h] at hlp
    obtain ⟨hit, _, rfl⟩ := List.mem_map.mp hlp
    exact ⟨hit.document_id.getD "unknown", rfl⟩

theorem api_id_ne_local (s d : String) (h : IsApiPaperId s) :
    s ≠ "local_" ++ d := by
  obtain ⟨t, ht | ht | ht⟩ := h <;> subst ht <;> intro he
  · have h2 : ("pubmed_" ++ t).data = ("local_" ++ d).data := congrArg String.data he
    rw [String.data_append, String.data_append] at h2
    have h3 : "pubmed_".data = 'p' :: "ubmed_".data := rfl
    have h4 : "local_".data = 'l' :: "ocal_".data := rfl
    rw [h3, h4] at h2
    simp at h2
  · have h2 : ("s2_" ++ t).data = ("local_" ++ d).data := congrArg String.data he
    rw [String.data_append, String.data_append] at h2
    have h3 : "s2_".data = 's' :: "2_".data := rfl
    have h4 : "local_".data = 'l' :: "ocal_".data := rfl
    rw [h3, h4] at h2
    simp at h2
  · have h2 : ("core_" ++ t).data = ("local_" ++ d).data := congrArg String.data he
    rw [String.data_append, String.data_append] at h2
    have h3 : "core_".data = 'c' :: "ore_".data := rfl
    have h4 : "local_".data = 'l' :: "ocal_".data := rfl
    rw [h3, h4] at h2
    simp at h2

theorem hops_disjoint_general (h0 h1 h2 : List PaperResult) (c1 c2 : Prop)
    [Decidable c1] [Decidable c2]
    (hu1 : ∀ p ∈ h1, p.paper_id ∉ h0.map PaperResult.paper_id)
    (hu2 : ∀ p ∈ h2,
      p.paper_id ∉ h0.map PaperResult.paper_id ++ h1.map PaperResult.paper_id) :
    ([h0] ++ (if c1 then [h1] else []) ++ (if c2 then [h2] else [])).Pairwise
      (fun a b => ∀ p ∈ a, ∀ p' ∈ b, p.paper_id ≠ p'.paper_id) := by
  have d01 : ∀ p ∈ h0, ∀ p' ∈ h1, p.paper_id ≠ p'.paper_id := by
    intro p hp p' hp' heq
    exact hu1 p' hp' (heq ▸ List.mem_map_of_mem _ hp)
  have d02 : ∀ p ∈ h0, ∀ p' ∈ h2, p.paper_id ≠ p'.paper_id := by
    intro p hp p' hp' heq
    exact hu2 p' hp' (List.mem_append_left _ (heq ▸ List.mem_map_of_mem _ hp))
  have d12 : ∀ p ∈ h1, ∀ p' ∈ h2, p.paper_id ≠ p'.paper_id := by
    intro p hp p' hp' heq
    exact hu2 p' hp' (List.mem_append_right _ (heq ▸ List.mem_map_of_mem _ hp))
  by_cases hc1 : c1 <;> by_cases hc2 : c2
  · rw [if_pos hc1, if_pos hc2]
    show List.Pairwise _ [h0, h1, h2]
    refine List.Pairwise.cons ?_ (List.Pairwise.cons ?_
      (List.Pairwise.cons (fun a ha => absurd ha (List.not_mem_nil a))
        List.Pairwise.nil))
    · intro a ha
      rcases List.mem_cons.mp ha with rfl | ha2
      · exact d01
      · rw [List.mem_singleton.mp ha2]
        exact d02
    · intro a ha
      rw [List.mem_singleton.mp ha]
      exact d12
  · rw [if_pos hc1, if_neg hc2]
    show List.Pairwise _ [h0, h1]
    refine List.Pairwise.cons ?_ (List.Pairwise.cons
      (fun a ha => absurd ha (List.not_mem_nil a)) List.Pairwise.nil)
    intro a ha
    rw [List.mem_singleton.mp ha]
    exact d01
  · rw [if_neg hc1, if_pos hc2]
    show List.Pairwise _ [h0, h2]
    refine List.Pairwise.cons ?_ (List.Pairwise.cons
      (fun a ha => absurd ha (List.not_mem_nil a)) List.Pairwise.nil)
    intro a ha
    rw [List.mem_singleton.mp ha]
    exact d02
  · rw [if_neg hc1, if_neg hc2]
    show List.Pairwise _ [h0]
    exact List.Pairwise.cons (fun a ha => absurd ha (List.not_mem_nil a))
      List.Pairwise.nil

theorem hops_local_general (h0 h1 h2 : List PaperResult) (c1 c2 : Prop)
    [Decidable c1] [Decidable c2] (L : List PaperResult)
    (a0 : ∀ p ∈ h0, IsApiPaperId p.paper_id)
    (a1 : ∀ p ∈ h1, IsApiPaperId p.paper_id)
    (a2 : ∀ p ∈ h2, IsApiPaperId p.paper_id)
    (hL : ∀ lp ∈ L, ∃ d, lp.paper_id = "local_" ++ d) :
    ∀ lp ∈ L,
      ∀ h ∈ ([h0] ++ (if c1 then [h1] else []) ++ (if c2 then [h2] else [])),
      ∀ p ∈ h, p.paper_id ≠ lp.paper_id := by
  intro lp hlp h hh p hp
  obtain ⟨d, hd⟩ := hL lp hlp
  rw [hd]
  have hpapi : IsApiPaperId p.paper_id := by
    rcases List.mem_append.mp hh with h' | h'
    · rcases List.mem_append.mp h' with h'' | h''
      · rw [List.mem_singleton.mp h''] at hp
        exact a0 p hp
      · split at h''
        · rw [List.mem_singleton.mp h''] at hp
          exact a1 p hp
        · exact absurd h'' (List.not_mem_nil h)
    · split at h'
      · rw [List.mem_singleton.mp h'] at hp
        exact a2 p hp
      · exact absurd h' (List.not_mem_nil h)
  exact api_id_ne_local _ d hpapi

theorem body_dedup (env : DeepEnv) (cfg : DeepSettings) (q : String)
    (cs : List String) (mh mp : Option ℕ) (hapi : ApiIdsOnly env) :
    ((deepSearchBody env cfg q cs mh mp).hops.Pairwise
      (fun a b => ∀ p ∈ a, ∀ p' ∈ b, p.paper_id ≠ p'.paper_id)) ∧
    (∀ lp ∈ (deepSearchBody env cfg q cs mh mp).local_papers,
      ∀ h ∈ (deepSearchBody env cfg q cs mh mp).hops, ∀ p ∈ h,
        p.paper_id ≠ lp.paper_id) := by
  obtain ⟨hapi0, hapi1, hapi2⟩ := hapi
  constructor
  · simp only [deepSearchBody]
    apply hops_disjoint_general
    · intro p hp
      split at hp
      · exact (hop1_ids env _ _ _ p hp).1
      · exact absurd hp (List.not_mem_nil p)
    · intro p hp
      split at hp
      · exact (hop2_ids env cfg _ _ _ p hp).1
      · exact absurd hp (List.not_mem_nil p)
  · simp only [deepSearchBody]
    apply hops_local_general
    · intro p hp
      obtain ⟨l, hl, q0, hq0, hid⟩ := hop0_ids env cs _ p hp
      rw [hid]
      exact hapi0 l hl q0 hq0
    · intro p hp
      split at hp
      · obtain ⟨_, q0, ⟨s, hs, l, hl, hql⟩, hid⟩ := hop1_ids env _ _ _ p hp
        rw [hid]
        exact hapi1 _ _ l hl q0 hql
      · exact absurd hp (List.not_mem_nil p)
    · intro p hp
      split at hp
      · obtain ⟨_, q0, ⟨s, hs, l, hl, hql⟩, hid⟩ := hop2_ids env cfg _ _ _ p hp
        rw [hid]
        exact hapi2 _ _ l hl q0 hql
      · exact absurd hp (List.not_mem_nil p)
    · intro lp hlp
      exact local_ids env lp hlp

/-- C3: in any successful deep-search invocation whose API collaborators only
deliver provider-prefixed paper ids (as `academic_apis.py` constructs them),
no `paper_id` appears in more than one hop's selected papers — each hop's
candidates are filtered against the visited set holding every earlier
selection — and no local-knowledge paper (id `local_...`) is ever selected by
an API hop. -/
theorem claim_C3_hop_dedup (env : DeepEnv) (cfg : DeepSettings) (q : String)
    (cs : List String) (mh mp : Option ℕ) (r : DeepSearchResult)
    (hapi : ApiIdsOnly env)
    (hok : deep_search env cfg q cs mh mp = Except.ok r) :
    (r.hops.Pairwise
      (fun a b => ∀ p ∈ a, ∀ p' ∈ b, p.paper_id ≠ p'.paper_id)) ∧
    (∀ lp ∈ r.local_papers, ∀ h ∈ r.hops, ∀ p ∈ h,
      p.paper_id ≠ lp.paper_id) := by
  have hr : r = deepSearchBody env cfg q cs mh mp := by
    unfold deep_search at hok
    cases hpr : env.progress with
    | none =>
      rw [hpr] at hok
      injection hok with h
      exact h.symm
    | some x =>
      cases x with
      | error e =>
        rw [hpr] at hok
        exact absurd hok (by simp)
      | ok u =>
        rw [hpr] at hok
        injection hok with h
        exact h.symm
  rw [hr]
  exact body_dedup env cfg q cs mh mp hapi

/-- C3 witness: the dedup conclusions on the concrete healthy environment
(hop 0 selects the PubMed paper, hop 1 its Semantic Scholar citation, and the
local `local_doc1` paper is touched by no hop). -/
theorem claim_C3_witness :
    ((deepSearchBody envOkW cfgW "q" [] none none).hops.Pairwise
      (fun a b => ∀ p ∈ a, ∀ p' ∈ b, p.paper_id ≠ p'.paper_id)) ∧
    (∀ lp ∈ (deepSearchBody envOkW cfgW "q" [] none none).local_papers,
      ∀ h ∈ (deepSearchBody envOkW cfgW "q" [] none none).hops, ∀ p ∈ h,
        p.paper_id ≠ lp.paper_id) := by
  have hapi : ApiIdsOnly envOkW := by
    refine ⟨?_, ?_, ?_⟩
    · intro l hl p hp
      have hl' : [paperW] = l := by injection hl
      rw [← hl'] at hp
      rw [List.mem_singleton.mp hp]
      exact ⟨"1", Or.inl rfl⟩
    · intro pid src l hl p hp
      have hl' : [paperS2W] = l := by injection hl
      rw [← hl'] at hp
      rw [List.mem_singleton.mp hp]
      exact ⟨"9", Or.inr (Or.inl rfl)⟩
    · intro pid src l hl p hp
      have hl' : ([] : List PaperResult) = l := by injection hl
      rw [← hl'] at hp
      exact absurd hp (List.not_mem_nil p)
  exact claim_C3_hop_dedup envOkW cfgW "q" [] none none _ hapi rfl
